import Mathlib

/-!
Shallow embedding of the aca-demo-monitoring repository: an inventory
service (`src/inventory-api/app.py`), an orders service
(`src/orders-api/app.py`) and a storefront gateway
(`src/storefront-frontend/app.py`).

Conventions of the embedding:
* Python ints become `Int` (they are unbounded and may be negative);
  prices (Python floats holding decimal money values) become `ℚ`.
* The in-memory dict `inventory` becomes an association list
  `List (String × Product)`; dict lookup / in-place mutation become
  `lookupProd` / `setStock` on the first matching key.
* An HTTP endpoint raising `HTTPException(status, detail)` becomes an
  `Except ApiError` result; state-mutating endpoints also return the new
  state.
* Outbound HTTP calls of the orders service are modelled with a
  reachability oracle `net : Nat → Bool` giving, for each outbound call
  (numbered in the order they are attempted within one request), whether
  the inventory service is reachable; an unreachable call raises
  `httpx.RequestError` and does not touch the inventory state.
-/

namespace AcaDemo

/-- Product record of the inventory dict: name, stock count, price. -/
structure Product where
  name : String
  stock : Int
  price : ℚ
deriving Repr, DecidableEq

/-- The `inventory` dict, keyed by product id. -/
abbrev Inv := List (String × Product)

/-- Dict lookup `inventory[product_id]` (first matching key). -/
def lookupProd : Inv → String → Option Product
  | [], _ => none
  | (k, p) :: rest, pid => if k = pid then some p else lookupProd rest pid

/-- In-place mutation `inventory[product_id]["stock"] = s` (first matching key). -/
def setStock : Inv → String → Int → Inv
  | [], _, _ => []
  | (k, p) :: rest, pid, s =>
    if k = pid then (k, { p with stock := s }) :: rest
    else (k, p) :: setStock rest pid s

/-- Seed inventory data of `src/inventory-api/app.py`. -/
def inventory : Inv :=
  [ ("laptop", ⟨"Laptop Pro", 25, 1299.99⟩)
  , ("mouse", ⟨"Wireless Mouse", 150, 29.99⟩)
  , ("keyboard", ⟨"Mechanical Keyboard", 75, 89.99⟩)
  , ("monitor", ⟨"4K Monitor", 40, 449.99⟩)
  , ("headset", ⟨"Gaming Headset", 60, 79.99⟩) ]

/-- Error raised by an endpoint: HTTP status code and detail string. -/
structure ApiError where
  status : Nat
  detail : String
deriving Repr, DecidableEq

/-- Response body of `GET /api/inventory/{product_id}`. -/
structure InventoryItemResp where
  product_id : String
  name : String
  stock : Int
  price : ℚ
  available : Bool
deriving Repr, DecidableEq

/-- Endpoint `GET /api/inventory/{product_id}` (`get_inventory`): read a
product; 404 when the id is unknown; no side effect on the inventory. -/
def get_inventory (inv : Inv) (product_id : String) :
    Except ApiError InventoryItemResp :=
  match lookupProd inv product_id with
  | none => .error ⟨404, "Product " ++ product_id ++ " not found"⟩
  | some item =>
      .ok ⟨product_id, item.name, item.stock, item.price, decide (0 < item.stock)⟩

/-- Endpoint `GET /api/inventory` (`get_all_inventory`): returns the whole
dict and its size; no side effect. -/
def get_all_inventory (inv : Inv) : Inv × Nat :=
  (inv, inv.length)

/-- Response body of `POST /api/inventory/{product_id}/reserve`. -/
structure ReserveResp where
  success : Bool
  product_id : String
  reserved_quantity : Int
  remaining_stock : Int
deriving Repr, DecidableEq

/-- Endpoint `POST /api/inventory/{product_id}/reserve` (`reserve_inventory`):
404 for an unknown id; 400 when `stock < quantity` (reporting available and
requested amounts, inventory unchanged); otherwise decrements the stock by
`quantity` and returns the remaining stock. -/
def reserve_inventory (inv : Inv) (product_id : String) (quantity : Int) :
    Except ApiError ReserveResp × Inv :=
  match lookupProd inv product_id with
  | none => (.error ⟨404, "Product " ++ product_id ++ " not found"⟩, inv)
  | some item =>
      if item.stock < quantity then
        (.error ⟨400, "Insufficient stock. Available: " ++ toString item.stock ++
          ", Requested: " ++ toString quantity⟩, inv)
      else
        (.ok ⟨true, product_id, quantity, item.stock - quantity⟩,
          setStock inv product_id (item.stock - quantity))

/-! ## Orders service (`src/orders-api/app.py`) -/

/-- Requested line item (`OrderItem` pydantic model). -/
structure OrderItem where
  product_id : String
  quantity : Int
deriving Repr, DecidableEq

/-- Body of `POST /api/orders` (`CreateOrderRequest` pydantic model). -/
structure CreateOrderRequest where
  customer_id : String
  items : List OrderItem
deriving Repr, DecidableEq

/-- Priced, snapshotted line item appended to `order_items`. -/
structure OrderLineItem where
  product_id : String
  product_name : String
  quantity : Int
  unit_price : ℚ
  total : ℚ
deriving Repr, DecidableEq

/-- Persisted order record. -/
structure Order where
  order_id : Int
  customer_id : String
  items : List OrderLineItem
  total_value : ℚ
  status : String
  created_at : String
deriving Repr, DecidableEq

/-- The `orders_db` dict, keyed by order id. -/
abbrev OrdersDb := List (Int × Order)

/-- Dict lookup `orders_db[order_id]` (first matching key; insertion
prepends, so this matches dict-overwrite semantics). -/
def lookupOrder : OrdersDb → Int → Option Order
  | [], _ => none
  | (k, o) :: rest, oid => if k = oid then some o else lookupOrder rest oid

/-- Mutable module-level state of the orders service: `orders_db` and
`order_id_counter`. -/
structure OrdersState where
  orders_db : OrdersDb
  order_id_counter : Int
deriving Repr, DecidableEq

/-- Startup state of the orders service: empty dict, counter at 1000. -/
def initOrdersState : OrdersState := ⟨[], 1000⟩

/-- Endpoint `GET /api/orders/{order_id}` (`get_order`): 404 when unknown,
otherwise the stored order; no side effect. -/
def get_order (st : OrdersState) (order_id : Int) : Except ApiError Order :=
  match lookupOrder st.orders_db order_id with
  | none => .error ⟨404, "Order " ++ toString order_id ++ " not found"⟩
  | some o => .ok o

/-- Endpoint `GET /api/orders` (`get_all_orders`): all stored orders and
their count; no side effect. -/
def get_all_orders (st : OrdersState) : List Order × Nat :=
  (st.orders_db.map Prod.snd, st.orders_db.length)

/-- One iteration of the `create_order` per-item loop (the body of the
`for item in order_request.items` loop): `g` / `r` say whether the GET
check call and the reserve POST call reach the inventory service.
Returns the loop-body outcome, the inventory state afterwards, and how
many outbound calls were attempted (1 or 2). An unreachable call raises
`httpx.RequestError`, caught and turned into a 503 whose detail is
`"Unable to reach inventory service: " + str(e)` in the code; the
`str(e)` suffix is omitted here because the network-exception text is
environment-specific, not program logic. -/
def check_inventory_item (g r : Bool) (inv : Inv) (item : OrderItem) :
    Except ApiError OrderLineItem × Inv × Nat :=
  if g = false then
    (.error ⟨503, "Unable to reach inventory service"⟩, inv, 1)
  else
    match get_inventory inv item.product_id with
    | .error _ =>
        (.error ⟨404, "Product " ++ item.product_id ++ " not found in inventory"⟩,
          inv, 1)
    | .ok d =>
        if d.stock < item.quantity then
          (.error ⟨400, "Insufficient stock for " ++ item.product_id ++
            ". Available: " ++ toString d.stock ++ ", Requested: " ++
            toString item.quantity⟩, inv, 1)
        else if r = false then
          (.error ⟨503, "Unable to reach inventory service"⟩, inv, 2)
        else
          match reserve_inventory inv item.product_id item.quantity with
          | (.error _, inv2) =>
              (.error ⟨500, "Failed to reserve inventory for " ++ item.product_id⟩,
                inv2, 2)
          | (.ok _, inv2) =>
              let item_total := d.price * (item.quantity : ℚ)
              (.ok ⟨item.product_id, d.name, item.quantity, d.price, item_total⟩,
                inv2, 2)

/-- The `create_order` per-item loop: threads the inventory state, the
global outbound-call index `c` (for the reachability oracle `net`), the
accumulated `order_items` and `total_value`. Returns the loop outcome,
the final inventory state, and the total number of outbound calls
attempted. -/
def process_items (net : Nat → Bool) :
    List OrderItem → Inv → Nat → List OrderLineItem → ℚ →
    Except ApiError (List OrderLineItem × ℚ) × Inv × Nat
  | [], inv, c, acc, total => (.ok (acc, total), inv, c)
  | item :: rest, inv, c, acc, total =>
    match check_inventory_item (net c) (net (c + 1)) inv item with
    | (.error e, inv2, n) => (.error e, inv2, c + n)
    | (.ok line, inv2, _) =>
        process_items net rest inv2 (c + 2) (acc ++ [line]) (total + line.total)

/-- Combined state of the two stateful services. -/
structure SysState where
  inv : Inv
  orders : OrdersState
deriving Repr, DecidableEq

/-- Startup state of the whole system. -/
def initSysState : SysState := ⟨inventory, initOrdersState⟩

/-- Endpoint `POST /api/orders` (`create_order`): takes a fresh id from the
counter (incrementing it unconditionally), runs the per-item loop, and on
full success persists and returns the confirmed order; on any item failure
the raised HTTPException propagates, so nothing is stored. `now` is the
`datetime.utcnow().isoformat()` timestamp. Returns the HTTP outcome, the
new system state, and the number of outbound inventory calls attempted. -/
def create_order (net : Nat → Bool) (now : String) (st : SysState)
    (req : CreateOrderRequest) : Except ApiError Order × SysState × Nat :=
  let order_id := st.orders.order_id_counter
  let counter2 := st.orders.order_id_counter + 1
  match process_items net req.items st.inv 0 [] 0 with
  | (.error e, inv2, calls) =>
      (.error e, ⟨inv2, ⟨st.orders.orders_db, counter2⟩⟩, calls)
  | (.ok (order_items, total_value), inv2, calls) =>
      let order : Order :=
        ⟨order_id, req.customer_id, order_items, total_value, "confirmed", now⟩
      (.ok order, ⟨inv2, ⟨(order_id, order) :: st.orders.orders_db, counter2⟩⟩, calls)

/-! ## Storefront gateway (`src/storefront-frontend/app.py`)

The gateway only forwards to the orders service and post-processes the
HTTP response, so it is modelled as a function of the upstream outcome.
`text` stands both for the raw body and (when `isJson` is true) for the
parsed JSON value that is returned to the client — returning the same
`text` models returning the body unchanged. `detail` is the `"detail"`
field when the body is a JSON object carrying one. -/

/-- Outcome of the gateway's outbound call to the orders service:
either a raised `httpx.RequestError` (connection failure / timeout,
carrying the formatted exception text) or a response with a status code
and a body. -/
inductive UpstreamResult where
  | unreachable (err : String)
  | resp (status : Nat) (isJson : Bool) (detail : Option String) (text : String)
deriving Repr, DecidableEq

/-- The `ORDERS_API_URL` default of the gateway. -/
def ORDERS_API_URL : String := "http://localhost:8001"

/-- The `response.json().get("detail", response.text)` /
`response.text or f"HTTP {status}"` fallback chain used by the gateway's
error paths. -/
def errorDetailOf (status : Nat) (isJson : Bool) (detail : Option String)
    (text : String) : String :=
  if isJson then
    match detail with
    | some d => d
    | none => text
  else if text ≠ "" then text
  else "HTTP " ++ toString status

/-- Gateway endpoint `GET /api/orders` (`get_orders`): forwards to the
orders service; non-200 becomes an error with the upstream detail behind
an `"Orders API error: "` label; a 200 body that is not JSON becomes 502;
an unreachable upstream becomes 503. -/
def frontend_get_orders (up : UpstreamResult) : Except ApiError String :=
  match up with
  | .unreachable err =>
      .error ⟨503, "Network error communicating with orders service at " ++
        ORDERS_API_URL ++ ": " ++ err⟩
  | .resp status isJson detail text =>
      if status ≠ 200 then
        .error ⟨status, "Orders API error: " ++ errorDetailOf status isJson detail text⟩
      else if isJson then .ok text
      else
        .error ⟨502, "Invalid response from orders service. Response: " ++
          text.take 100⟩

/-- Gateway endpoint `GET /api/orders/{order_id}` (`get_order`): 404 is
re-raised with a freshly formatted detail; any other non-200 status is
re-raised with the fixed detail `"Failed to fetch order from Orders API"`;
a 200 body that is not JSON makes `response.json()` raise, which the
generic `except Exception` handler turns into a 500 (`jsonErr` stands for
the formatted `type(e).__name__: str(e)` text of that exception); an
unreachable upstream becomes 503. -/
def frontend_get_order (order_id : Int) (jsonErr : String)
    (up : UpstreamResult) : Except ApiError String :=
  match up with
  | .unreachable err =>
      .error ⟨503, "Network error communicating with orders service at " ++
        ORDERS_API_URL ++ ": " ++ err⟩
  | .resp status isJson _ text =>
      if status = 404 then
        .error ⟨404, "Order " ++ toString order_id ++ " not found"⟩
      else if status ≠ 200 then
        .error ⟨status, "Failed to fetch order from Orders API"⟩
      else if isJson then .ok text
      else
        .error ⟨500, "Unexpected error fetching order " ++ toString order_id ++
          ": " ++ jsonErr⟩

/-- Gateway endpoint `POST /api/orders` (`create_order`): forwards the
request body `order_data` unchanged (first component of the result); a
non-200 upstream status is re-raised with the upstream detail unchanged;
a 200 body that is not JSON becomes 502; an unreachable upstream becomes
503. -/
def frontend_create_order (order_data : String) (up : UpstreamResult) :
    String × Except ApiError String :=
  (order_data,
    match up with
    | .unreachable err =>
        .error ⟨503, "Network error communicating with orders service at " ++
          ORDERS_API_URL ++ ": " ++ err⟩
    | .resp status isJson detail text =>
        if status ≠ 200 then
          .error ⟨status, errorDetailOf status isJson detail text⟩
        else if isJson then .ok text
        else
          .error ⟨502, "Invalid response from orders service. Response: " ++
            text.take 100⟩)

/-! ## Operation model and specification-side helper definitions

These are not transcriptions of repository code; they name states and
state transformations so the claims can be stated. -/

/-- An inventory-service API operation. -/
inductive InvOp where
  | list
  | read (pid : String)
  | reserve (pid : String) (q : Int)

/-- State effect of one inventory-service operation: `list` and `read`
return data without touching the dict; `reserve` is `reserve_inventory`. -/
def applyInvOp (inv : Inv) : InvOp → Inv
  | .list => inv
  | .read _ => inv
  | .reserve pid q => (reserve_inventory inv pid q).2

/-- Every stock in the dict is non-negative. -/
def allStockNonneg (inv : Inv) : Prop :=
  ∀ e ∈ inv, 0 ≤ e.2.stock

instance (inv : Inv) : Decidable (allStockNonneg inv) := by
  unfold allStockNonneg; infer_instance

/-- An API operation against the whole system. -/
inductive SysOp where
  | invList
  | invRead (pid : String)
  | invReserve (pid : String) (q : Int)
  | ordersList
  | ordersGet (oid : Int)
  | ordersCreate (net : Nat → Bool) (now : String) (req : CreateOrderRequest)

/-- State effect of one system operation. Reads leave the state alone;
`invReserve` runs `reserve_inventory`; `ordersCreate` runs `create_order`. -/
def applySysOp (st : SysState) : SysOp → SysState
  | .invList => st
  | .invRead _ => st
  | .invReserve pid q => ⟨(reserve_inventory st.inv pid q).2, st.orders⟩
  | .ordersList => st
  | .ordersGet _ => st
  | .ordersCreate net now req => (create_order net now st req).2.1

/-- State reached from `initSysState` by a sequence of API operations. -/
def reachFrom (ops : List SysOp) : SysState :=
  ops.foldl applySysOp initSysState

/-- Inventory effect of successfully reserving one requested item. -/
def reserveOne (inv : Inv) (item : OrderItem) : Inv :=
  (reserve_inventory inv item.product_id item.quantity).2

/-- Inventory effect of successfully reserving a list of items in order. -/
def reserveAll (inv : Inv) (items : List OrderItem) : Inv :=
  items.foldl reserveOne inv

/-- Every item of the list reserves successfully when processed in request
order starting from inventory `inv` at call index `c` under reachability
oracle `net`. -/
def allItemsReserveB (net : Nat → Bool) (c : Nat) : Inv → List OrderItem → Bool
  | _, [] => true
  | inv, item :: rest =>
    match check_inventory_item (net c) (net (c + 1)) inv item with
    | (.ok _, inv2, _) => allItemsReserveB net (c + 2) inv2 rest
    | (.error _, _, _) => false

/-- Line items produced by a fully successful run of the per-item loop:
each line snapshots name and price from the inventory as it stands when
that item is processed. (Total function; on ids absent from the inventory
it produces no line, but such runs are never fully successful.) -/
def mkLines (inv : Inv) : List OrderItem → List OrderLineItem
  | [] => []
  | item :: rest =>
    match lookupProd inv item.product_id with
    | none => []
    | some p =>
        ⟨item.product_id, p.name, item.quantity, p.price,
          p.price * (item.quantity : ℚ)⟩ :: mkLines (reserveOne inv item) rest

/-- Whether an `Except` outcome is a success. -/
def exceptOk {ε α : Type} : Except ε α → Bool
  | .ok _ => true
  | .error _ => false

/-- Every stored order id is below the counter (so the counter is fresh). -/
def idsBelow (st : OrdersState) : Prop :=
  ∀ e ∈ st.orders_db, e.1 < st.order_id_counter

instance (st : OrdersState) : Decidable (idsBelow st) := by
  unfold idsBelow; infer_instance

/-- Every order in the store has status "confirmed". -/
def allConfirmed (st : SysState) : Prop :=
  ∀ e ∈ st.orders.orders_db, e.2.status = "confirmed"

/-! ## Concrete fixtures used to instantiate theorems on sample inputs -/

/-- Oracle describing a fully reachable inventory service. -/
def allUp : Nat → Bool := fun _ => true

/-- Sample request of the spec: two mice and one keyboard. -/
def reqMK : CreateOrderRequest := ⟨"c1", [⟨"mouse", 2⟩, ⟨"keyboard", 1⟩]⟩

/-- Sample request whose second item asks for more mice than are in stock. -/
def reqBad : CreateOrderRequest := ⟨"c1", [⟨"laptop", 5⟩, ⟨"mouse", 200⟩, ⟨"keyboard", 1⟩]⟩

/-- Line items produced for `reqMK` against the seed inventory. -/
def linesMK : List OrderLineItem :=
  [ ⟨"mouse", "Wireless Mouse", 2, 29.99, 59.98⟩
  , ⟨"keyboard", "Mechanical Keyboard", 1, 89.99, 89.99⟩ ]

/-- Order produced by `create_order allUp "t" initSysState reqMK`. -/
def orderMK1 : Order := ⟨1000, "c1", linesMK, 149.97, "confirmed", "t"⟩

/-- Order produced by a second identical request (timestamp "u"). -/
def orderMK2 : Order := ⟨1001, "c1", linesMK, 149.97, "confirmed", "u"⟩

/-- Inventory after `reqMK` succeeds: 148 mice, 74 keyboards. -/
def invMK : Inv := setStock (setStock inventory "mouse" 148) "keyboard" 74

/-- System state after `create_order allUp "t" initSysState reqMK`. -/
def st2MK : SysState := ⟨invMK, ⟨[(1000, orderMK1)], 1001⟩⟩

/-- Error returned for `reqBad` (its second item over-asks). -/
def errBad : ApiError :=
  ⟨400, "Insufficient stock for mouse. Available: 150, Requested: 200"⟩

/-- System state after the failed `reqBad` run: the laptop decrement of
item 1 stands, no order is stored, the id counter has advanced. -/
def st2Bad : SysState := ⟨setStock inventory "laptop" 20, ⟨[], 1001⟩⟩

/-! ## Basic lemmas about the inventory dict -/

theorem lookupProd_setStock_self (inv : Inv) (pid : String) (s : Int) (p : Product)
    (h : lookupProd inv pid = some p) :
    lookupProd (setStock inv pid s) pid = some { p with stock := s } := by
  induction inv with
  | nil => simp [lookupProd] at h
  | cons e rest ih =>
      obtain ⟨k, q⟩ := e
      by_cases hk : k = pid
      · subst hk
        simp [lookupProd] at h
        simp [setStock, lookupProd, h]
      · simp [lookupProd, hk] at h
        simp [setStock, lookupProd, hk, ih h]

theorem lookupProd_setStock_ne (inv : Inv) (pid pid2 : String) (s : Int)
    (h : pid2 ≠ pid) :
    lookupProd (setStock inv pid s) pid2 = lookupProd inv pid2 := by
  induction inv with
  | nil => simp [setStock]
  | cons e rest ih =>
      obtain ⟨k, q⟩ := e
      by_cases hk : k = pid
      · subst hk
        simp [setStock, lookupProd, Ne.symm h]
      · simp [setStock, lookupProd, hk, ih]

theorem allStockNonneg_setStock (inv : Inv) (pid : String) (s : Int)
    (hs : 0 ≤ s) (h : allStockNonneg inv) :
    allStockNonneg (setStock inv pid s) := by
  induction inv with
  | nil => simp [setStock, allStockNonneg]
  | cons e rest ih =>
      obtain ⟨k, q⟩ := e
      have hq : 0 ≤ q.stock := h ⟨k, q⟩ (by simp)
      have hrest : allStockNonneg rest := fun x hx => h x (by simp [hx])
      by_cases hk : k = pid
      · subst hk
        intro x hx
        simp [setStock] at hx
        rcases hx with hx | hx
        · simp [hx, hs]
        · exact hrest x hx
      · intro x hx
        simp [setStock, hk] at hx
        rcases hx with hx | hx
        · simp [hx, hq]
        · exact ih hrest x hx

theorem allStockNonneg_reserve (inv : Inv) (pid : String) (q : Int)
    (h : allStockNonneg inv) :
    allStockNonneg (reserve_inventory inv pid q).2 := by
  unfold reserve_inventory
  cases hl : lookupProd inv pid with
  | none => simpa using h
  | some p =>
      by_cases hs : p.stock < q
      · simpa [hs] using h
      · simp only [hs, if_false]
        exact allStockNonneg_setStock inv pid (p.stock - q) (by omega) h

theorem reserve_inventory_error_inv (inv : Inv) (pid : String) (q : Int)
    (e : ApiError) (h : (reserve_inventory inv pid q).1 = .error e) :
    (reserve_inventory inv pid q).2 = inv := by
  unfold reserve_inventory at *
  cases hl : lookupProd inv pid with
  | none => simp [hl]
  | some p =>
      by_cases hs : p.stock < q
      · simp [hl, hs]
      · simp [hl, hs] at h

/-! ## Characterization of the per-item loop body -/

theorem check_inventory_item_ok_cases (g r : Bool) (inv : Inv) (item : OrderItem)
    (line : OrderLineItem) (inv2 : Inv) (n : Nat)
    (h : check_inventory_item g r inv item = (.ok line, inv2, n)) :
    ∃ p, lookupProd inv item.product_id = some p ∧ ¬ p.stock < item.quantity ∧
      line = ⟨item.product_id, p.name, item.quantity, p.price,
        p.price * (item.quantity : ℚ)⟩ ∧
      inv2 = reserveOne inv item ∧ n = 2 ∧ g = true ∧ r = true := by
  unfold check_inventory_item at h
  cases g with
  | false => simp at h
  | true =>
    unfold get_inventory at h
    cases hl : lookupProd inv item.product_id with
    | none => simp [hl] at h
    | some p =>
        simp only [hl] at h
        by_cases hs : p.stock < item.quantity
        · simp [hs] at h
        · cases r with
          | false => simp [hs] at h
          | true =>
            unfold reserve_inventory at h
            simp only [hl] at h
            simp [hs] at h
            obtain ⟨h1, h2, h3⟩ := h
            refine ⟨p, rfl, hs, h1.symm, ?_, h3.symm, rfl, rfl⟩
            rw [← h2]
            unfold reserveOne reserve_inventory
            simp [hl, hs]

theorem check_inventory_item_ok_of (inv : Inv) (item : OrderItem) (p : Product)
    (hl : lookupProd inv item.product_id = some p)
    (hs : ¬ p.stock < item.quantity) :
    check_inventory_item true true inv item =
      (.ok ⟨item.product_id, p.name, item.quantity, p.price,
        p.price * (item.quantity : ℚ)⟩, reserveOne inv item, 2) := by
  unfold check_inventory_item get_inventory
  simp only [hl]
  unfold reserveOne reserve_inventory
  simp [hl, hs]

theorem check_inventory_item_error_cases (g r : Bool) (inv : Inv) (item : OrderItem)
    (e : ApiError) (inv2 : Inv) (n : Nat)
    (h : check_inventory_item g r inv item = (.error e, inv2, n)) :
    inv2 = inv ∧ 1 ≤ n ∧ n ≤ 2 := by
  unfold check_inventory_item at h
  cases g with
  | false =>
      simp at h
      obtain ⟨h1, h2, h3⟩ := h
      exact ⟨h2.symm, by omega⟩
  | true =>
    unfold get_inventory at h
    cases hl : lookupProd inv item.product_id with
    | none =>
        simp [hl] at h
        obtain ⟨h1, h2, h3⟩ := h
        exact ⟨h2.symm, by omega⟩
    | some p =>
        simp only [hl] at h
        by_cases hs : p.stock < item.quantity
        · simp [hs] at h
          obtain ⟨h1, h2, h3⟩ := h
          exact ⟨h2.symm, by omega⟩
        · cases r with
          | false =>
              simp [hs] at h
              obtain ⟨h1, h2, h3⟩ := h
              exact ⟨h2.symm, by omega⟩
          | true =>
              unfold reserve_inventory at h
              simp only [hl] at h
              simp [hs] at h

/-! ## Characterization of the whole per-item loop -/

theorem process_items_ok_of_all (net : Nat → Bool) (items : List OrderItem) :
    ∀ inv c acc total, allItemsReserveB net c inv items = true →
    process_items net items inv c acc total =
      (.ok (acc ++ mkLines inv items,
        total + ((mkLines inv items).map OrderLineItem.total).sum),
       reserveAll inv items, c + 2 * items.length) := by
  induction items with
  | nil =>
      intro inv c acc total _
      simp [process_items, mkLines, reserveAll]
  | cons item rest ih =>
      intro inv c acc total hall
      rcases hchk : check_inventory_item (net c) (net (c + 1)) inv item
        with ⟨res, inv2, n⟩
      cases res with
      | error e =>
          exfalso
          unfold allItemsReserveB at hall
          rw [hchk] at hall
          simp at hall
      | ok line =>
          obtain ⟨p, hl, hs, hline, hinv2, hn, hg, hr⟩ :=
            check_inventory_item_ok_cases _ _ _ _ _ _ _ hchk
          unfold allItemsReserveB at hall
          rw [hchk] at hall
          simp only [] at hall
          unfold process_items
          rw [hchk]
          simp only []
          rw [ih inv2 (c + 2) (acc ++ [line]) (total + line.total) hall]
          unfold reserveAll
          simp only [List.foldl_cons]
          rw [← hinv2]
          have hmk : mkLines inv (item :: rest) = line :: mkLines inv2 rest := by
            have hstep : mkLines inv (item :: rest) =
                match lookupProd inv item.product_id with
                | none => []
                | some q =>
                    ⟨item.product_id, q.name, item.quantity, q.price,
                      q.price * (item.quantity : ℚ)⟩ ::
                      mkLines (reserveOne inv item) rest := rfl
            rw [hstep, hl, hline, hinv2]
          rw [hmk]
          simp [hline, List.length_cons]
          constructor
          · ring
          · omega

theorem process_items_error_cases (net : Nat → Bool) (items : List OrderItem) :
    ∀ inv c acc total e inv2 calls,
    process_items net items inv c acc total = (.error e, inv2, calls) →
    ∃ k item, items[k]? = some item ∧
      allItemsReserveB net c inv (items.take k) = true ∧
      (check_inventory_item (net (c + 2 * k)) (net (c + 2 * k + 1))
        (reserveAll inv (items.take k)) item).1 = .error e ∧
      inv2 = reserveAll inv (items.take k) ∧
      c + 2 * k < calls ∧ calls ≤ c + 2 * k + 2 := by
  induction items with
  | nil =>
      intro inv c acc total e inv2 calls h
      simp [process_items] at h
  | cons item rest ih =>
      intro inv c acc total e inv2 calls h
      rcases hchk : check_inventory_item (net c) (net (c + 1)) inv item
        with ⟨res, invB, n⟩
      cases res with
      | error e0 =>
          unfold process_items at h
          rw [hchk] at h
          simp only [Prod.mk.injEq, Except.error.injEq] at h
          obtain ⟨he, hinv, hcalls⟩ := h
          obtain ⟨hB, hn1, hn2⟩ :=
            check_inventory_item_error_cases _ _ _ _ _ _ _ hchk
          refine ⟨0, item, by simp, ?_, ?_, ?_, ?_, ?_⟩
          · simp [allItemsReserveB]
          · simp only [List.take_zero, Nat.mul_zero, Nat.add_zero]
            unfold reserveAll
            simp only [List.foldl_nil]
            rw [hchk]
            simp [he]
          · simp only [List.take_zero]
            unfold reserveAll
            simp only [List.foldl_nil]
            rw [← hinv, hB]
          · omega
          · omega
      | ok line =>
          obtain ⟨p, hl, hs, hline, hinvB, hn, hg, hr⟩ :=
            check_inventory_item_ok_cases _ _ _ _ _ _ _ hchk
          unfold process_items at h
          rw [hchk] at h
          simp only [] at h
          obtain ⟨k, item2, hk, hall, herr, hinv2, hlo, hhi⟩ :=
            ih invB (c + 2) (acc ++ [line]) (total + line.total) e inv2 calls h
          refine ⟨k + 1, item2, ?_, ?_, ?_, ?_, ?_, ?_⟩
          · simpa using hk
          · rw [List.take_succ_cons]
            have hstep : allItemsReserveB net c inv (item :: List.take k rest) =
                match check_inventory_item (net c) (net (c + 1)) inv item with
                | (.ok _, invC, _) => allItemsReserveB net (c + 2) invC (List.take k rest)
                | (.error _, _, _) => false := rfl
            rw [hstep, hchk]
            exact hall
          · have : c + 2 * (k + 1) = c + 2 + 2 * k := by omega
            rw [List.take_succ_cons]
            unfold reserveAll
            rw [List.foldl_cons, ← hinvB]
            rw [this]
            exact herr
          · rw [List.take_succ_cons]
            unfold reserveAll
            rw [List.foldl_cons, ← hinvB]
            exact hinv2
          · omega
          · omega

theorem process_items_isOk (net : Nat → Bool) (items : List OrderItem) :
    ∀ inv c acc total,
    exceptOk (process_items net items inv c acc total).1 =
      allItemsReserveB net c inv items := by
  induction items with
  | nil => intro inv c acc total; simp [process_items, allItemsReserveB, exceptOk]
  | cons item rest ih =>
      intro inv c acc total
      rcases hchk : check_inventory_item (net c) (net (c + 1)) inv item
        with ⟨res, invB, n⟩
      cases res with
      | error e0 =>
          unfold process_items allItemsReserveB
          rw [hchk]
          simp [exceptOk]
      | ok line =>
          unfold process_items allItemsReserveB
          rw [hchk]
          simp only []
          exact ih invB (c + 2) (acc ++ [line]) (total + line.total)

/-! ## Lemmas about the snapshot lines of a successful run -/

theorem mkLines_mem_total (items : List OrderItem) :
    ∀ inv, ∀ l ∈ mkLines inv items, l.total = l.unit_price * (l.quantity : ℚ) := by
  induction items with
  | nil => intro inv l hl; simp [mkLines] at hl
  | cons item rest ih =>
      intro inv l hl
      unfold mkLines at hl
      cases hlk : lookupProd inv item.product_id with
      | none => rw [hlk] at hl; simp at hl
      | some p =>
          rw [hlk] at hl
          simp only [List.mem_cons] at hl
          rcases hl with hl | hl
          · subst hl; rfl
          · exact ih (reserveOne inv item) l hl

theorem mkLines_map_sum (items : List OrderItem) (inv : Inv) :
    ((mkLines inv items).map OrderLineItem.total).sum =
      ((mkLines inv items).map (fun l => l.unit_price * (l.quantity : ℚ))).sum := by
  have hmap : (mkLines inv items).map OrderLineItem.total =
      (mkLines inv items).map (fun l => l.unit_price * (l.quantity : ℚ)) :=
    List.map_congr_left (fun l hl => mkLines_mem_total items inv l hl)
  rw [hmap]

theorem mkLines_length (net : Nat → Bool) (items : List OrderItem) :
    ∀ c inv, allItemsReserveB net c inv items = true →
    (mkLines inv items).length = items.length := by
  induction items with
  | nil => intro c inv _; simp [mkLines]
  | cons item rest ih =>
      intro c inv hall
      rcases hchk : check_inventory_item (net c) (net (c + 1)) inv item
        with ⟨res, invB, n⟩
      cases res with
      | error e0 =>
          exfalso
          unfold allItemsReserveB at hall
          rw [hchk] at hall
          simp at hall
      | ok line =>
          obtain ⟨p, hl, hs, hline, hinvB, hn, hg, hr⟩ :=
            check_inventory_item_ok_cases _ _ _ _ _ _ _ hchk
          unfold allItemsReserveB at hall
          rw [hchk] at hall
          have hstep : mkLines inv (item :: rest) =
              ⟨item.product_id, p.name, item.quantity, p.price,
                p.price * (item.quantity : ℚ)⟩ ::
                mkLines (reserveOne inv item) rest := by
            have h0 : mkLines inv (item :: rest) =
                match lookupProd inv item.product_id with
                | none => []
                | some q =>
                    ⟨item.product_id, q.name, item.quantity, q.price,
                      q.price * (item.quantity : ℚ)⟩ ::
                      mkLines (reserveOne inv item) rest := rfl
            rw [h0, hl]
          rw [hstep]
          simp only [List.length_cons]
          rw [ih (c + 2) (reserveOne inv item) (hinvB ▸ hall)]

theorem mkLines_get (net : Nat → Bool) (items : List OrderItem) :
    ∀ c inv k item, allItemsReserveB net c inv items = true →
    items[k]? = some item →
    ∃ p, lookupProd (reserveAll inv (items.take k)) item.product_id = some p ∧
      (mkLines inv items)[k]? =
        some ⟨item.product_id, p.name, item.quantity, p.price,
          p.price * (item.quantity : ℚ)⟩ := by
  induction items with
  | nil => intro c inv k item _ hk; simp at hk
  | cons it rest ih =>
      intro c inv k item hall hk
      rcases hchk : check_inventory_item (net c) (net (c + 1)) inv it
        with ⟨res, invB, n⟩
      cases res with
      | error e0 =>
          exfalso
          unfold allItemsReserveB at hall
          rw [hchk] at hall
          simp at hall
      | ok line =>
          obtain ⟨p, hl, hs, hline, hinvB, hn, hg, hr⟩ :=
            check_inventory_item_ok_cases _ _ _ _ _ _ _ hchk
          unfold allItemsReserveB at hall
          rw [hchk] at hall
          have hstep : mkLines inv (it :: rest) =
              ⟨it.product_id, p.name, it.quantity, p.price,
                p.price * (it.quantity : ℚ)⟩ ::
                mkLines (reserveOne inv it) rest := by
            have h0 : mkLines inv (it :: rest) =
                match lookupProd inv it.product_id with
                | none => []
                | some q =>
                    ⟨it.product_id, q.name, it.quantity, q.price,
                      q.price * (it.quantity : ℚ)⟩ ::
                      mkLines (reserveOne inv it) rest := rfl
            rw [h0, hl]
          cases k with
          | zero =>
              simp only [List.getElem?_cons_zero, Option.some.injEq] at hk
              subst hk
              refine ⟨p, ?_, ?_⟩
              · simpa [reserveAll] using hl
              · rw [hstep]; simp
          | succ k0 =>
              simp only [List.getElem?_cons_succ] at hk
              obtain ⟨q, hq1, hq2⟩ :=
                ih (c + 2) (reserveOne inv it) k0 item (hinvB ▸ hall) hk
              refine ⟨q, ?_, ?_⟩
              · rw [List.take_succ_cons]
                unfold reserveAll
                rw [List.foldl_cons]
                exact hq1
              · rw [hstep]
                simpa using hq2

/-! ## Remaining helper lemmas -/

theorem lookupOrder_none_of_lt (db : OrdersDb) (c : Int)
    (h : ∀ e ∈ db, e.1 < c) : lookupOrder db c = none := by
  induction db with
  | nil => rfl
  | cons e rest ih =>
      obtain ⟨k, o⟩ := e
      have hk : k < c := h ⟨k, o⟩ (by simp)
      have hne : k ≠ c := by omega
      simp only [lookupOrder, hne, if_false]
      exact ih (fun x hx => h x (by simp [hx]))

theorem allConfirmed_applySysOp (st : SysState) (op : SysOp)
    (h : allConfirmed st) : allConfirmed (applySysOp st op) := by
  cases op with
  | invList => exact h
  | invRead _ => exact h
  | invReserve pid q => exact h
  | ordersList => exact h
  | ordersGet _ => exact h
  | ordersCreate net now req =>
      show allConfirmed (create_order net now st req).2.1
      unfold create_order
      rcases hp : process_items net req.items st.inv 0 [] 0 with ⟨res, invf, callsf⟩
      cases res with
      | error e => exact h
      | ok pair =>
          obtain ⟨lines, tv⟩ := pair
          intro x hx
          rcases List.mem_cons.mp hx with hx1 | hx2
          · rw [hx1]
          · exact h x hx2

theorem allConfirmed_foldl (ops : List SysOp) :
    ∀ st, allConfirmed st → allConfirmed (ops.foldl applySysOp st) := by
  induction ops with
  | nil => intro st h; exact h
  | cons op rest ih =>
      intro st h
      rw [List.foldl_cons]
      exact ih (applySysOp st op) (allConfirmed_applySysOp st op h)

/-! ## Claims -/

/-- C2: for a known product `pid` with record `p` and any requested
quantity `q`: if `q ≤ stock`, `reserve_inventory` succeeds, returns
`remaining_stock = stock - q`, stores exactly `stock - q` as the new stock
and touches no other product; if `q > stock` it fails with a 400 whose
detail reports the original stock as available and the requested quantity,
leaving the inventory unchanged. -/
theorem reserve_conditional_decrement (inv : Inv) (pid : String) (q : Int)
    (p : Product) (h : lookupProd inv pid = some p) :
    (q ≤ p.stock →
      reserve_inventory inv pid q =
        (.ok ⟨true, pid, q, p.stock - q⟩, setStock inv pid (p.stock - q)) ∧
      lookupProd (reserve_inventory inv pid q).2 pid =
        some ⟨p.name, p.stock - q, p.price⟩ ∧
      ∀ pid2, pid2 ≠ pid →
        lookupProd (reserve_inventory inv pid q).2 pid2 = lookupProd inv pid2) ∧
    (p.stock < q →
      reserve_inventory inv pid q =
        (.error ⟨400, "Insufficient stock. Available: " ++ toString p.stock ++
          ", Requested: " ++ toString q⟩, inv)) := by
  constructor
  · intro hq
    have hnlt : ¬ p.stock < q := not_lt.mpr hq
    have hres : reserve_inventory inv pid q =
        (.ok ⟨true, pid, q, p.stock - q⟩, setStock inv pid (p.stock - q)) := by
      unfold reserve_inventory
      rw [h]
      simp [hnlt]
    refine ⟨hres, ?_, ?_⟩
    · rw [hres]
      exact lookupProd_setStock_self inv pid (p.stock - q) p h
    · intro pid2 hne
      rw [hres]
      exact lookupProd_setStock_ne inv pid pid2 (p.stock - q) hne
  · intro hq
    unfold reserve_inventory
    rw [h]
    simp [hq]

/-- Witness for C2 on the spec's example: reserving 5 laptops from stock
25 returns remaining 20; reserving 30 afterwards fails reporting
available 20, requested 30, without changing the stock. -/
theorem reserve_conditional_decrement_witness :
    reserve_inventory inventory "laptop" 5 =
      (.ok ⟨true, "laptop", 5, 20⟩, setStock inventory "laptop" 20) ∧
    reserve_inventory (setStock inventory "laptop" 20) "laptop" 30 =
      (.error ⟨400, "Insufficient stock. Available: 20, Requested: 30"⟩,
        setStock inventory "laptop" 20) := by
  constructor
  · have h := (reserve_conditional_decrement inventory "laptop" 5
      ⟨"Laptop Pro", 25, 1299.99⟩ rfl).1 (by norm_num)
    exact h.1
  · have h := (reserve_conditional_decrement (setStock inventory "laptop" 20)
      "laptop" 30 ⟨"Laptop Pro", 20, 1299.99⟩ rfl).2 (by norm_num)
    exact h

/-- C9: `reserve_inventory` never checks that the quantity is positive:
any integer `q` with `q ≤ stock` (zero and negative values included)
succeeds with `reserved_quantity = q` and stores `stock - q`, so a
negative `q` strictly increases the stock. -/
theorem reserve_accepts_nonpositive (inv : Inv) (pid : String) (q : Int)
    (p : Product) (h : lookupProd inv pid = some p) (hq : q ≤ p.stock) :
    reserve_inventory inv pid q =
      (.ok ⟨true, pid, q, p.stock - q⟩, setStock inv pid (p.stock - q)) ∧
    lookupProd (reserve_inventory inv pid q).2 pid =
      some ⟨p.name, p.stock - q, p.price⟩ ∧
    (q < 0 → p.stock < p.stock - q) := by
  have hnlt : ¬ p.stock < q := not_lt.mpr hq
  have hres : reserve_inventory inv pid q =
      (.ok ⟨true, pid, q, p.stock - q⟩, setStock inv pid (p.stock - q)) := by
    unfold reserve_inventory
    rw [h]
    simp [hnlt]
  refine ⟨hres, ?_, fun hneg => by omega⟩
  rw [hres]
  exact lookupProd_setStock_self inv pid (p.stock - q) p h

/-- Witness for C9: reserving -5 laptops succeeds and raises the stock
from 25 to 30; reserving 0 mice succeeds and leaves the stock at 150. -/
theorem reserve_accepts_nonpositive_witness :
    reserve_inventory inventory "laptop" (-5) =
      (.ok ⟨true, "laptop", -5, 30⟩, setStock inventory "laptop" 30) ∧
    (25 : Int) < 30 ∧
    reserve_inventory inventory "mouse" 0 =
      (.ok ⟨true, "mouse", 0, 150⟩, setStock inventory "mouse" 150) := by
  refine ⟨?_, by norm_num, ?_⟩
  · have h := reserve_accepts_nonpositive inventory "laptop" (-5)
      ⟨"Laptop Pro", 25, 1299.99⟩ rfl (by norm_num)
    exact h.1
  · have h := reserve_accepts_nonpositive inventory "mouse" 0
      ⟨"Wireless Mouse", 150, 29.99⟩ rfl (by norm_num)
    exact h.1

/-- C5: starting from an inventory whose stocks are all non-negative,
every sequence of inventory API operations (list, read, reserve with any
integer quantity) keeps every stock non-negative; list and read have no
side effect on the inventory, so reserve is the only mutating operation. -/
theorem inventory_stock_invariant (inv : Inv) (h : allStockNonneg inv) :
    (∀ ops : List InvOp, allStockNonneg (ops.foldl applyInvOp inv)) ∧
    (∀ pid, applyInvOp inv (.read pid) = inv) ∧
    applyInvOp inv .list = inv := by
  refine ⟨?_, fun _ => rfl, rfl⟩
  intro ops
  induction ops generalizing inv with
  | nil => exact h
  | cons op rest ih =>
      rw [List.foldl_cons]
      apply ih
      cases op with
      | list => exact h
      | read _ => exact h
      | reserve pid q => exact allStockNonneg_reserve inv pid q h

/-- Witness for C5: the seed inventory has non-negative stocks, and after
a sample operation sequence (a successful reserve, a read, an over-large
reserve that fails, an unknown-product reserve and a negative-quantity
reserve) all stocks are still non-negative. -/
theorem inventory_stock_invariant_witness :
    allStockNonneg inventory ∧
    allStockNonneg
      ([InvOp.reserve "laptop" 5, InvOp.read "mouse", InvOp.reserve "laptop" 300,
        InvOp.reserve "nope" 1, InvOp.reserve "mouse" (-3)].foldl
          applyInvOp inventory) := by
  have h0 : allStockNonneg inventory := by decide
  exact ⟨h0, (inventory_stock_invariant inventory h0).1 _⟩

/-- C10: `create_order` on an empty item list succeeds without any
inventory call (call count 0) and persists a confirmed order with no
items and total value 0, consuming one order id. -/
theorem create_order_empty_items (net : Nat → Bool) (now : String)
    (st : SysState) (cust : String) :
    create_order net now st ⟨cust, []⟩ =
      (.ok ⟨st.orders.order_id_counter, cust, [], 0, "confirmed", now⟩,
       ⟨st.inv,
        ⟨(st.orders.order_id_counter,
           ⟨st.orders.order_id_counter, cust, [], 0, "confirmed", now⟩) ::
             st.orders.orders_db,
         st.orders.order_id_counter + 1⟩⟩, 0) := rfl

/-- C7: an order returned by a successful `create_order` is immediately
retrievable unchanged through `get_order` under its `order_id` (orders are
never mutated or deleted after creation; no such operation exists). -/
theorem create_order_roundtrip (net : Nat → Bool) (now : String) (st : SysState)
    (req : CreateOrderRequest) (o : Order) (st2 : SysState) (calls : Nat)
    (h : create_order net now st req = (.ok o, st2, calls)) :
    get_order st2.orders o.order_id = .ok o := by
  unfold create_order at h
  rcases hp : process_items net req.items st.inv 0 [] 0 with ⟨res, invf, callsf⟩
  rw [hp] at h
  cases res with
  | error e => simp at h
  | ok pair =>
      obtain ⟨lines, tv⟩ := pair
      simp only [Prod.mk.injEq, Except.ok.injEq] at h
      obtain ⟨ho, hst2, hcalls⟩ := h
      subst ho
      subst hst2
      simp [get_order, lookupOrder]

/-- Witness for C7: the order stored for the spec's two-item sample
request is retrieved unchanged under id 1000. -/
theorem create_order_roundtrip_witness :
    get_order st2MK.orders 1000 = .ok orderMK1 := by
  exact create_order_roundtrip allUp "t" initSysState reqMK orderMK1 st2MK 4
    (by with_unfolding_all rfl)

/-- C6: every `create_order` invocation consumes exactly one id from the
monotonic counter: the counter advances by one whether the call succeeds
or fails, a successful order carries the pre-call counter value as its id,
the all-ids-below-counter invariant is preserved (so the consumed id was
never assigned before), and the orders of two consecutive successful
invocations carry strictly increasing ids. -/
theorem create_order_id_counter (net : Nat → Bool) (now : String)
    (st : SysState) (req : CreateOrderRequest) :
    ((create_order net now st req).2.1.orders.order_id_counter =
      st.orders.order_id_counter + 1) ∧
    (∀ o, (create_order net now st req).1 = .ok o →
      o.order_id = st.orders.order_id_counter) ∧
    (idsBelow st.orders → idsBelow (create_order net now st req).2.1.orders) ∧
    (idsBelow st.orders →
      lookupOrder st.orders.orders_db st.orders.order_id_counter = none) ∧
    (∀ net2 now2 req2 o o2,
      (create_order net now st req).1 = .ok o →
      (create_order net2 now2 (create_order net now st req).2.1 req2).1 = .ok o2 →
      o.order_id < o2.order_id) := by
  have hcnt : ∀ (netA : Nat → Bool) (nowA : String) (stA : SysState)
      (reqA : CreateOrderRequest),
      (create_order netA nowA stA reqA).2.1.orders.order_id_counter =
        stA.orders.order_id_counter + 1 := by
    intro netA nowA stA reqA
    unfold create_order
    rcases hp : process_items netA reqA.items stA.inv 0 [] 0 with ⟨res, invf, callsf⟩
    cases res with
    | error e => rfl
    | ok pair => obtain ⟨lines, tv⟩ := pair; rfl
  have hid : ∀ (netA : Nat → Bool) (nowA : String) (stA : SysState)
      (reqA : CreateOrderRequest) (o : Order),
      (create_order netA nowA stA reqA).1 = .ok o →
      o.order_id = stA.orders.order_id_counter := by
    intro netA nowA stA reqA o ho
    unfold create_order at ho
    rcases hp : process_items netA reqA.items stA.inv 0 [] 0 with ⟨res, invf, callsf⟩
    rw [hp] at ho
    cases res with
    | error e => simp at ho
    | ok pair =>
        obtain ⟨lines, tv⟩ := pair
        simp only [Except.ok.injEq] at ho
        rw [← ho]
  refine ⟨hcnt net now st req, fun o => hid net now st req o, ?_, ?_, ?_⟩
  · intro hbelow
    unfold create_order
    rcases hp : process_items net req.items st.inv 0 [] 0 with ⟨res, invf, callsf⟩
    cases res with
    | error e =>
        intro x hx
        have := hbelow x hx
        show x.1 < st.orders.order_id_counter + 1
        omega
    | ok pair =>
        obtain ⟨lines, tv⟩ := pair
        intro x hx
        show x.1 < st.orders.order_id_counter + 1
        rcases List.mem_cons.mp hx with hx1 | hx2
        · rw [hx1]; omega
        · have := hbelow x hx2; omega
  · intro hbelow
    exact lookupOrder_none_of_lt st.orders.orders_db st.orders.order_id_counter
      hbelow
  · intro net2 now2 req2 o o2 h1 h2
    have e1 : o.order_id = st.orders.order_id_counter := hid net now st req o h1
    have e2 : o2.order_id =
        (create_order net now st req).2.1.orders.order_id_counter :=
      hid net2 now2 (create_order net now st req).2.1 req2 o2 h2
    rw [e1, e2, hcnt net now st req]
    omega

/-- Witness for C6: after the sample request the counter stands at 1001,
the stored order carries id 1000, the ids-below-counter invariant holds in
the new state, id 1000 was unused at startup, and a second successful
request yields the strictly larger id 1001. -/
theorem create_order_id_counter_witness :
    (create_order allUp "t" initSysState reqMK).2.1.orders.order_id_counter = 1001 ∧
    orderMK1.order_id = 1000 ∧
    idsBelow (create_order allUp "t" initSysState reqMK).2.1.orders ∧
    lookupOrder initSysState.orders.orders_db 1000 = none ∧
    orderMK1.order_id < orderMK2.order_id := by
  have h := create_order_id_counter allUp "t" initSysState reqMK
  refine ⟨h.1, h.2.1 orderMK1 (by with_unfolding_all rfl), h.2.2.1 (by decide),
    h.2.2.2.1 (by decide), ?_⟩
  exact h.2.2.2.2 allUp "u" reqMK orderMK1 orderMK2
    (by with_unfolding_all rfl) (by with_unfolding_all rfl)

/-- C1: when `create_order` fails, it fails on the first item `k` that
does not fully reserve, returns exactly the error of that item's failing
step, never attempts inventory calls for items after `k` (at most
`2k + 2` calls are made, where the first `k` items account for `2k`),
keeps the stock decrements of items before `k` (the failing run leaves the
inventory at exactly the state reached by reserving the first `k` items —
no reversal), and persists no order. -/
theorem create_order_abort (net : Nat → Bool) (now : String) (st : SysState)
    (req : CreateOrderRequest) (e : ApiError) (st2 : SysState) (calls : Nat)
    (h : create_order net now st req = (.error e, st2, calls)) :
    st2.orders.orders_db = st.orders.orders_db ∧
    ∃ k item, req.items[k]? = some item ∧
      allItemsReserveB net 0 st.inv (req.items.take k) = true ∧
      (check_inventory_item (net (2 * k)) (net (2 * k + 1))
        (reserveAll st.inv (req.items.take k)) item).1 = .error e ∧
      st2.inv = reserveAll st.inv (req.items.take k) ∧
      2 * k < calls ∧ calls ≤ 2 * k + 2 := by
  unfold create_order at h
  rcases hp : process_items net req.items st.inv 0 [] 0 with ⟨res, invf, callsf⟩
  rw [hp] at h
  cases res with
  | ok pair => obtain ⟨lines, tv⟩ := pair; simp at h
  | error e0 =>
      simp only [Prod.mk.injEq, Except.error.injEq] at h
      obtain ⟨he, hst2, hcalls⟩ := h
      subst he
      subst hst2
      subst hcalls
      obtain ⟨k, it, h1, h2, h3, h4, h5, h6⟩ :=
        process_items_error_cases net req.items st.inv 0 [] 0 e0 invf callsf hp
      refine ⟨rfl, k, it, h1, h2, ?_, ?_, by omega, by omega⟩
      · simpa using h3
      · simpa using h4

/-- Witness for C1: the three-item sample request whose second item
over-asks fails with the insufficient-stock error of item 2 after 3 calls
(2 for the reserved laptop, 1 for the failed mouse check); the laptop
decrement stands, the keyboard is never touched, and no order is stored. -/
theorem create_order_abort_witness :
    create_order allUp "t" initSysState reqBad = (.error errBad, st2Bad, 3) ∧
    st2Bad.orders.orders_db = initSysState.orders.orders_db ∧
    st2Bad.inv = reserveAll initSysState.inv (reqBad.items.take 1) := by
  have h := create_order_abort allUp "t" initSysState reqBad errBad st2Bad 3 rfl
  exact ⟨rfl, h.1, rfl⟩

/-- C4: a successful `create_order` returns an order whose `total_value`
is the sum of `unit_price * quantity` over its line items, each line's
`total` is its `unit_price * quantity`, there is one line per requested
item, and each line snapshots name and price from the inventory as it
stood when that item was reserved (the state after reserving the previous
items of the same request); inventory mutations performed after the order
is stored do not touch the order store. -/
theorem create_order_total_value (net : Nat → Bool) (now : String)
    (st : SysState) (req : CreateOrderRequest) (o : Order) (st2 : SysState)
    (calls : Nat) (h : create_order net now st req = (.ok o, st2, calls)) :
    o.total_value = (o.items.map (fun l => l.unit_price * (l.quantity : ℚ))).sum ∧
    (∀ l ∈ o.items, l.total = l.unit_price * (l.quantity : ℚ)) ∧
    o.items.length = req.items.length ∧
    (∀ k item, req.items[k]? = some item →
      ∃ p, lookupProd (reserveAll st.inv (req.items.take k)) item.product_id =
          some p ∧
        o.items[k]? = some ⟨item.product_id, p.name, item.quantity, p.price,
          p.price * (item.quantity : ℚ)⟩) ∧
    (∀ pid q, (applySysOp st2 (.invReserve pid q)).orders = st2.orders) := by
  unfold create_order at h
  rcases hp : process_items net req.items st.inv 0 [] 0 with ⟨res, invf, callsf⟩
  rw [hp] at h
  cases res with
  | error e => simp at h
  | ok pair =>
      obtain ⟨lines, tv⟩ := pair
      have hallB : allItemsReserveB net 0 st.inv req.items = true := by
        have hok := process_items_isOk net req.items st.inv 0 [] 0
        rw [hp] at hok
        simpa [exceptOk] using hok.symm
      have hrun := process_items_ok_of_all net req.items st.inv 0 [] 0 hallB
      rw [hp] at hrun
      simp only [Prod.mk.injEq, Except.ok.injEq, List.nil_append] at hrun
      obtain ⟨⟨hlines, htv⟩, hinvf, hcallsf⟩ := hrun
      simp only [Prod.mk.injEq, Except.ok.injEq] at h
      obtain ⟨ho, hst2, hcalls⟩ := h
      subst ho
      subst hst2
      subst hlines
      subst htv
      refine ⟨?_, ?_, ?_, ?_, fun pid q => rfl⟩
      · simpa using mkLines_map_sum req.items st.inv
      · exact fun l hl => mkLines_mem_total req.items st.inv l hl
      · exact mkLines_length net req.items 0 st.inv hallB
      · exact fun k item hk => mkLines_get net req.items 0 st.inv k item hallB hk

/-- Witness for C4 on the spec's example: the order totals 149.97 which is
the sum of its lines' unit_price * quantity, it has one line per requested
item, its first line snapshots the mouse name and price, and a later
reserve against the inventory leaves the order store untouched. -/
theorem create_order_total_value_witness :
    orderMK1.total_value = 149.97 ∧
    orderMK1.total_value =
      (orderMK1.items.map (fun l => l.unit_price * (l.quantity : ℚ))).sum ∧
    orderMK1.items.length = reqMK.items.length ∧
    orderMK1.items[0]? = some ⟨"mouse", "Wireless Mouse", 2, 29.99, 59.98⟩ ∧
    (applySysOp st2MK (.invReserve "laptop" 3)).orders = st2MK.orders := by
  have h := create_order_total_value allUp "t" initSysState reqMK orderMK1
    st2MK 4 (by with_unfolding_all rfl)
  refine ⟨by with_unfolding_all rfl, h.1, h.2.2.1, ?_, h.2.2.2.2 "laptop" 3⟩
  obtain ⟨p, hp1, hp2⟩ := h.2.2.2.1 0 ⟨"mouse", 2⟩ rfl
  have hpeq : (⟨"Wireless Mouse", 150, 29.99⟩ : Product) = p :=
    Option.some.inj (by rw [← hp1]; with_unfolding_all rfl)
  rw [hp2, ← hpeq]
  with_unfolding_all rfl

/-- C3: every reachable state stores only orders with status "confirmed";
for any `create_order` invocation the order store changes precisely when
the call succeeds, and the call succeeds precisely when every requested
line item reserves successfully in request order — so no partially
reserved order is ever visible in the store. -/
theorem orders_confirmed_iff_reserved :
    (∀ ops : List SysOp, allConfirmed (reachFrom ops)) ∧
    (∀ (net : Nat → Bool) (now : String) (st : SysState)
        (req : CreateOrderRequest),
      (((create_order net now st req).2.1.orders.orders_db ≠
          st.orders.orders_db) ↔
        ∃ o, (create_order net now st req).1 = .ok o) ∧
      ((∃ o, (create_order net now st req).1 = .ok o) ↔
        allItemsReserveB net 0 st.inv req.items = true)) := by
  constructor
  · intro ops
    exact allConfirmed_foldl ops initSysState
      (fun e he => absurd he (List.not_mem_nil e))
  · intro net now st req
    rcases hp : process_items net req.items st.inv 0 [] 0 with ⟨res, invf, callsf⟩
    have hok := process_items_isOk net req.items st.inv 0 [] 0
    rw [hp] at hok
    cases res with
    | error e =>
        have hco : create_order net now st req =
            (.error e, ⟨invf, ⟨st.orders.orders_db,
              st.orders.order_id_counter + 1⟩⟩, callsf) := by
          unfold create_order
          rw [hp]
        rw [hco]
        constructor
        · constructor
          · intro hne
            exact absurd rfl hne
          · rintro ⟨o, ho⟩
            exact absurd ho (by simp)
        · constructor
          · rintro ⟨o, ho⟩
            exact absurd ho (by simp)
          · intro hall
            rw [hall] at hok
            simp [exceptOk] at hok
    | ok pair =>
        obtain ⟨lines, tv⟩ := pair
        have hco : create_order net now st req =
            (.ok ⟨st.orders.order_id_counter, req.customer_id, lines, tv,
                "confirmed", now⟩,
             ⟨invf, ⟨(st.orders.order_id_counter,
                ⟨st.orders.order_id_counter, req.customer_id, lines, tv,
                  "confirmed", now⟩) :: st.orders.orders_db,
               st.orders.order_id_counter + 1⟩⟩, callsf) := by
          unfold create_order
          rw [hp]
        rw [hco]
        constructor
        · constructor
          · intro _
            exact ⟨_, rfl⟩
          · intro _
            exact List.cons_ne_self _ _
        · constructor
          · intro _
            simpa [exceptOk] using hok.symm
          · intro _
            exact ⟨_, rfl⟩

/-- Witness for C3: after one successful sample request the store holds
exactly the confirmed order 1000, and success of that request coincides
with every item reserving. -/
theorem orders_confirmed_iff_reserved_witness :
    (1000, orderMK1) ∈
      (reachFrom [SysOp.ordersCreate allUp "t" reqMK]).orders.orders_db ∧
    orderMK1.status = "confirmed" ∧
    allItemsReserveB allUp 0 initSysState.inv reqMK.items = true := by
  have hmem : (1000, orderMK1) ∈
      (reachFrom [SysOp.ordersCreate allUp "t" reqMK]).orders.orders_db := by
    have hdb : (reachFrom [SysOp.ordersCreate allUp "t" reqMK]).orders.orders_db =
        [(1000, orderMK1)] := by with_unfolding_all rfl
    rw [hdb]
    exact List.mem_singleton.mpr rfl
  have h := orders_confirmed_iff_reserved
  refine ⟨hmem, h.1 [SysOp.ordersCreate allUp "t" reqMK] (1000, orderMK1) hmem, ?_⟩
  exact (h.2 allUp "t" initSysState reqMK).2.mp
    ⟨orderMK1, by with_unfolding_all rfl⟩

/-- C8 counterexample: the gateway does not always relay the upstream
detail unchanged and does not map every malformed upstream response to
502. A 200 response with a non-JSON body on get-order-by-id produces a
500 (not 502), and a get-all-orders error detail is prefixed with
"Orders API error: " (not relayed unchanged). -/
theorem gateway_relay_counterexample :
    frontend_get_order 7 "Expecting value" (.resp 200 false none "oops") =
      .error ⟨500, "Unexpected error fetching order 7: Expecting value"⟩ ∧
    (500 : Nat) ≠ 502 ∧
    frontend_get_orders (.resp 500 true (some "boom") "body") =
      .error ⟨500, "Orders API error: boom"⟩ ∧
    "Orders API error: boom" ≠ "boom" := by
  refine ⟨rfl, by decide, rfl, by decide⟩

/-- C8 (amended): the gateway relays the create-order request body
unchanged. For create-order it relays the upstream error status and
detail unchanged, maps an unreachable orchestrator to 503 and a malformed
200 body to 502. For get-all-orders it relays the error status but
prefixes the detail with "Orders API error: ", maps unreachable to 503
and a malformed 200 body to 502. For get-order-by-id it maps 404 to an
identically formatted 404, relays any other error status with the fixed
detail "Failed to fetch order from Orders API", maps unreachable to 503
and a malformed 200 body to 500. All endpoints return the upstream JSON
body unchanged on a well-formed 200. -/
theorem gateway_relay :
    (∀ body up, (frontend_create_order body up).1 = body) ∧
    (∀ body status isJson detail text, status ≠ 200 →
      (frontend_create_order body (.resp status isJson detail text)).2 =
        .error ⟨status, errorDetailOf status isJson detail text⟩) ∧
    (∀ body status d text, status ≠ 200 →
      (frontend_create_order body (.resp status true (some d) text)).2 =
        .error ⟨status, d⟩) ∧
    (∀ body err, (frontend_create_order body (.unreachable err)).2 =
      .error ⟨503, "Network error communicating with orders service at " ++
        ORDERS_API_URL ++ ": " ++ err⟩) ∧
    (∀ body detail text,
      (frontend_create_order body (.resp 200 false detail text)).2 =
        .error ⟨502, "Invalid response from orders service. Response: " ++
          text.take 100⟩) ∧
    (∀ body detail text,
      (frontend_create_order body (.resp 200 true detail text)).2 = .ok text) ∧
    (∀ status d text, status ≠ 200 →
      frontend_get_orders (.resp status true (some d) text) =
        .error ⟨status, "Orders API error: " ++ d⟩) ∧
    (∀ err, frontend_get_orders (.unreachable err) =
      .error ⟨503, "Network error communicating with orders service at " ++
        ORDERS_API_URL ++ ": " ++ err⟩) ∧
    (∀ detail text, frontend_get_orders (.resp 200 false detail text) =
      .error ⟨502, "Invalid response from orders service. Response: " ++
        text.take 100⟩) ∧
    (∀ detail text, frontend_get_orders (.resp 200 true detail text) = .ok text) ∧
    (∀ oid jsonErr isJson d text,
      frontend_get_order oid jsonErr (.resp 404 isJson d text) =
        .error ⟨404, "Order " ++ toString oid ++ " not found"⟩) ∧
    (∀ oid jsonErr status isJson d text, status ≠ 404 → status ≠ 200 →
      frontend_get_order oid jsonErr (.resp status isJson d text) =
        .error ⟨status, "Failed to fetch order from Orders API"⟩) ∧
    (∀ oid jsonErr err, frontend_get_order oid jsonErr (.unreachable err) =
      .error ⟨503, "Network error communicating with orders service at " ++
        ORDERS_API_URL ++ ": " ++ err⟩) ∧
    (∀ oid jsonErr d text, frontend_get_order oid jsonErr (.resp 200 false d text) =
      .error ⟨500, "Unexpected error fetching order " ++ toString oid ++ ": " ++
        jsonErr⟩) ∧
    (∀ oid jsonErr d text,
      frontend_get_order oid jsonErr (.resp 200 true d text) = .ok text) := by
  refine ⟨fun body up => rfl, ?_, ?_, fun body err => rfl, ?_, ?_, ?_,
    fun err => rfl, ?_, ?_, ?_, ?_, fun oid jsonErr err => rfl, ?_, ?_⟩
  · intro body status isJson detail text hst
    simp [frontend_create_order, hst]
  · intro body status d text hst
    simp [frontend_create_order, errorDetailOf, hst]
  · intro body detail text
    simp [frontend_create_order]
  · intro body detail text
    simp [frontend_create_order]
  · intro status d text hst
    simp [frontend_get_orders, errorDetailOf, hst]
  · intro detail text
    simp [frontend_get_orders]
  · intro detail text
    simp [frontend_get_orders]
  · intro oid jsonErr isJson d text
    simp [frontend_get_order]
  · intro oid jsonErr status isJson d text h404 h200
    simp [frontend_get_order, h404, h200]
  · intro oid jsonErr d text
    simp [frontend_get_order]
  · intro oid jsonErr d text
    simp [frontend_get_order]

/-- Witness for C8 (amended): a 404 create-order error relays status and
detail unchanged; a 500 get-all-orders error comes back with the
"Orders API error: " label; a 503 from get-order-by-id keeps the status
with the fixed detail. -/
theorem gateway_relay_witness :
    (frontend_create_order "BODY"
      (.resp 404 true (some "Product x not found in inventory") "txt")).2 =
      .error ⟨404, "Product x not found in inventory"⟩ ∧
    frontend_get_orders (.resp 500 true (some "boom") "txt") =
      .error ⟨500, "Orders API error: boom"⟩ ∧
    frontend_get_order 5 "jerr" (.resp 503 false none "txt") =
      .error ⟨503, "Failed to fetch order from Orders API"⟩ := by
  obtain ⟨h1, h2, h3, h4, h5, h6, h7, h8, h9, h10, h11, h12, h13, h14, h15⟩ :=
    gateway_relay
  exact ⟨h3 "BODY" 404 "Product x not found in inventory" "txt" (by decide),
    h7 500 "boom" "txt" (by decide),
    h12 5 "jerr" 503 false none "txt" (by decide) (by decide)⟩

end AcaDemo
